import Mathlib

/-!
Verification of the vibeGraphql engine against its specification.

This file is a shallow embedding, in Lean 4, of the Go sources of the
vibeGraphql repository: the lexer (lexer.go), the token definitions
(token.go), the AST (document.go), the recursive-descent parser
(parser.go) and the executor (graphql.go).  Go strings are byte
sequences and are modelled as lists of byte values (`GoStr`); Go maps
are modelled as association lists with replace-on-insert; Go's
`interface{}` runtime values, as far as the executor inspects them,
are modelled by the inductive type `GoVal`; fallible Go functions
returning `(T, error)` are modelled with `Except`.  The parser contains
loops that do not always make progress, so it is embedded with a fuel
parameter: every parser function consumes one unit of fuel on entry,
and a run that returns `none` at every fuel value diverges in Go.
-/

namespace VG

/-- Go strings are byte sequences; we model them as lists of byte values. -/
abbrev GoStr := List Nat

/-- Byte sequence of an ASCII string literal (each character's code point;
for the ASCII strings used here this is exactly the Go byte sequence). -/
def gs (s : String) : GoStr := s.data.map Char.toNat

/-- Token types, from token.go. -/
inductive TokenType where
  | ILLEGAL | EOF | IDENT | INT | STRING | ASSIGN | COLON | COMMA | SEMICOLON
  | LPAREN | RPAREN | LBRACE | RBRACE | LBRACKET | RBRACKET | DOLLAR | BANG
deriving DecidableEq, Repr

/-- Token, from token.go: a type and a literal. -/
structure Token where
  typ : TokenType
  literal : GoStr
deriving DecidableEq, Repr

/-- Go `isLetter` from lexer.go: `unicode.IsLetter(rune(ch)) || ch == '_'`.
The argument is a byte, so `rune(ch)` is the Latin-1 code point of the byte
value; `unicode.IsLetter` holds on code points 0x00-0xFF exactly for
A-Z, a-z, 0xAA, 0xB5, 0xBA, 0xC0-0xD6, 0xD8-0xF6 and 0xF8-0xFF. -/
def goIsLetter (ch : Nat) : Bool :=
  (65 ≤ ch && ch ≤ 90) || (97 ≤ ch && ch ≤ 122) ||
  ch == 0xAA || ch == 0xB5 || ch == 0xBA ||
  (0xC0 ≤ ch && ch ≤ 0xD6) || (0xD8 ≤ ch && ch ≤ 0xF6) || (0xF8 ≤ ch && ch ≤ 0xFF) ||
  ch == 95

/-- Go `isDigit` from lexer.go: ASCII digits. -/
def goIsDigit (ch : Nat) : Bool := 48 ≤ ch && ch ≤ 57

/-- Whitespace bytes skipped by `skipWhitespace` in lexer.go:
space, tab, newline, carriage return. -/
def isWhitespaceByte (ch : Nat) : Bool := ch == 32 || ch == 9 || ch == 10 || ch == 13

/-- Lexer `skipWhitespace` from lexer.go, on the remaining input. -/
def skipWhitespace : List Nat → List Nat
  | [] => []
  | c :: rest => if isWhitespaceByte c then skipWhitespace rest else c :: rest

/-- Longest prefix satisfying a byte predicate, with the rest of the input;
models the scanning loops of `readIdentifier` and `readNumber` (the Go loop
stops when the current byte fails the predicate, and at end of input the
current byte is 0, which fails every predicate used here). -/
def lexTakeWhile (p : Nat → Bool) : List Nat → GoStr × List Nat
  | [] => ([], [])
  | c :: rest =>
    if p c then
      let q := lexTakeWhile p rest
      (c :: q.1, q.2)
    else ([], c :: rest)

/-- Lexer `NextToken` from lexer.go, on the remaining input: returns the
token and the input remaining after it.  The string case models
`readString`: skip the opening quote, take bytes until a closing quote or a
NUL byte or end of input, then skip one more byte (the closing delimiter)
when present.  A NUL byte inside the input hits the `case 0` branch and
produces an EOF token, as in Go. -/
def nextToken (input : List Nat) : Token × List Nat :=
  match skipWhitespace input with
  | [] => (⟨.EOF, []⟩, [])
  | c :: rest =>
    if c == 61 then (⟨.ASSIGN, [c]⟩, rest)
    else if c == 58 then (⟨.COLON, [c]⟩, rest)
    else if c == 44 then (⟨.COMMA, [c]⟩, rest)
    else if c == 59 then (⟨.SEMICOLON, [c]⟩, rest)
    else if c == 40 then (⟨.LPAREN, [c]⟩, rest)
    else if c == 41 then (⟨.RPAREN, [c]⟩, rest)
    else if c == 123 then (⟨.LBRACE, [c]⟩, rest)
    else if c == 125 then (⟨.RBRACE, [c]⟩, rest)
    else if c == 91 then (⟨.LBRACKET, [c]⟩, rest)
    else if c == 93 then (⟨.RBRACKET, [c]⟩, rest)
    else if c == 34 then
      let q := lexTakeWhile (fun b => !(b == 34 || b == 0)) rest
      (⟨.STRING, q.1⟩, match q.2 with | [] => [] | _ :: r => r)
    else if c == 36 then (⟨.DOLLAR, [c]⟩, rest)
    else if c == 33 then (⟨.BANG, [c]⟩, rest)
    else if c == 0 then (⟨.EOF, []⟩, rest)
    else if goIsLetter c then
      let q := lexTakeWhile (fun b => goIsLetter b || goIsDigit b) (c :: rest)
      (⟨.IDENT, q.1⟩, q.2)
    else if goIsDigit c then
      let q := lexTakeWhile goIsDigit (c :: rest)
      (⟨.INT, q.1⟩, q.2)
    else (⟨.ILLEGAL, [c]⟩, rest)

/-- The single-character punctuation bytes the lexer recognizes:
`= : , ; ( ) { } [ ] $ !`. -/
def recognizedPunct (b : Nat) : Bool :=
  b == 61 || b == 58 || b == 44 || b == 59 || b == 40 || b == 41 ||
  b == 123 || b == 125 || b == 91 || b == 93 || b == 36 || b == 33

/-- AST `Value` from document.go: Kind ("Int", "String", "Boolean",
"Variable", "Enum", "Object", "Array", "Illegal"), a Literal, object
fields (a Go map, modelled as an association list) and an array list. -/
inductive Value where
  | mk (kind : String) (literal : GoStr)
      (objectFields : List (GoStr × Value)) (list : List Value)

/-- AST `Argument` from document.go.  Its `Value` field is a nilable
pointer in Go (parseArguments appends an Argument with a nil Value when
the colon after the argument name is missing), hence the `Option`. -/
structure Argument where
  name : GoStr
  value : Option Value

mutual
/-- AST `Field` from document.go: name, arguments, optional nested
selection set (the Go `SelectionSet` struct only wraps its
`Selections` slice, so a selection set is its list of selections). -/
inductive Field where
  | mk (name : GoStr) (arguments : List Argument)
      (selectionSet : Option (List Selection)) : Field

/-- AST `Selection` from document.go: an interface implemented in the
repository by `*Field`; tests also register a non-Field implementation,
modelled by `other`.  A nil `*Field` wrapped in the interface is a
non-nil interface value whose type assertion to `*Field` succeeds; the
parser produces such values (parseSelection returns p.parseField()
converted to the interface), so they are modelled by `nilField`. -/
inductive Selection where
  | field (f : Field) : Selection
  | nilField : Selection
  | other : Selection
end

/-- A selection set is its list of selections (the Go struct wraps the slice). -/
abbrev SelectionSet := List Selection

def Field.name : Field → GoStr
  | .mk n _ _ => n

def Field.arguments : Field → List Argument
  | .mk _ a _ => a

def Field.selectionSet : Field → Option SelectionSet
  | .mk _ _ s => s

/-- AST `Type` from document.go: Name, NonNull, IsList and an optional
element type (a nilable pointer in Go). -/
inductive GType where
  | mk (name : GoStr) (nonNull : Bool) (isList : Bool) (elem : Option GType)

/-- The Go zero value of `Type`. -/
def GType.zero : GType := .mk [] false false none

/-- AST `VariableDefinition` from document.go (its Go field `Variable` is a
reserved word in Lean, hence `varName`). -/
structure VariableDefinition where
  varName : GoStr
  type : GType

/-- AST `OperationDefinition` from document.go.  The Go `SelectionSet`
field is a nilable pointer, hence the `Option`. -/
structure OperationDefinition where
  operation : GoStr
  name : GoStr
  variableDefinitions : List VariableDefinition
  selectionSet : Option SelectionSet

/-- AST `Definition` from document.go: an interface implemented by
`*OperationDefinition` and `*TypeDefinition` (the `TypeDefinition` struct
itself is declared outside the provided sources; its shape
{Name, Fields} is determined by its construction site in parser.go);
tests also register a further dummy implementation, modelled by
`otherDef`. -/
inductive Definition where
  | op (o : OperationDefinition)
  | typeDef (name : GoStr) (fields : List Field)
  | otherDef

/-- Insert into a Go map modelled as an association list: replace the
value at an existing key, else append the new binding. -/
def mapInsert {α : Type} : List (GoStr × α) → GoStr → α → List (GoStr × α)
  | [], k, v => [(k, v)]
  | (k', v') :: rest, k, v =>
    if k' == k then (k, v) :: rest else (k', v') :: mapInsert rest k v

/-- Parser state from parser.go: current token, peek token, and remaining
lexer input.  `NewParser` primes both tokens from the lexer. -/
structure PState where
  cur : Token
  peek : Token
  rest : List Nat
deriving DecidableEq, Repr

/-- Parser `nextToken` from parser.go: shift peek into cur, lex one more. -/
def pAdvance (s : PState) : PState :=
  let t := nextToken s.rest
  ⟨s.peek, t.1, t.2⟩

/-- `NewParser` from parser.go: prime the two-token lookahead. -/
def initPState (input : List Nat) : PState :=
  let t1 := nextToken input
  let t2 := nextToken t1.2
  ⟨t1.1, t2.1, t2.2⟩

/-- Keyword test used by parseDefinition and parseOperationDefinition:
the current token's literal is "query", "mutation" or "subscription". -/
def isOpKeyword (lit : GoStr) : Bool :=
  lit == gs "query" || lit == gs "mutation" || lit == gs "subscription"

/-- Parser `parseType` from parser.go, with fuel.  Go returns a nilable
`*Type`; `none` in the inner option models nil.  After a list type the
closing bracket position is skipped unconditionally, as in the source. -/
def parseTypeF : Nat → PState → Option (Option GType × PState)
  | 0, _ => none
  | n+1, s =>
    if s.cur.typ == .LBRACKET then
      match parseTypeF n (pAdvance s) with
      | none => none
      | some (inner, s1) =>
        let s2 := pAdvance s1
        if s2.cur.typ == .BANG then some (some (.mk [] true true inner), pAdvance s2)
        else some (some (.mk [] false true inner), s2)
    else if s.cur.typ == .IDENT then
      let nm := s.cur.literal
      let s1 := pAdvance s
      if s1.cur.typ == .BANG then some (some (.mk nm true false none), pAdvance s1)
      else some (some (.mk nm false false none), s1)
    else some (none, s)

mutual
/-- Parser `parseValue` from parser.go, with fuel. -/
def parseValueF : Nat → PState → Option (Value × PState)
  | 0, _ => none
  | n+1, s =>
    if s.cur.typ == .LBRACE then parseObjectF n s
    else if s.cur.typ == .LBRACKET then parseArrayF n s
    else if s.cur.typ == .INT then some (.mk "Int" s.cur.literal [] [], pAdvance s)
    else if s.cur.typ == .STRING then some (.mk "String" s.cur.literal [] [], pAdvance s)
    else if s.cur.typ == .IDENT then
      let kind := if s.cur.literal == gs "true" || s.cur.literal == gs "false"
                  then "Boolean" else "Enum"
      some (.mk kind s.cur.literal [] [], pAdvance s)
    else if s.cur.typ == .DOLLAR then
      let s1 := pAdvance s
      if s1.cur.typ == .IDENT then some (.mk "Variable" s1.cur.literal [] [], pAdvance s1)
      else some (.mk "Variable" [] [] [], s1)
    else some (.mk "Illegal" s.cur.literal [] [], pAdvance s)

/-- Parser `parseObject` from parser.go, with fuel: skips the opening
brace and runs the key-value loop. -/
def parseObjectF : Nat → PState → Option (Value × PState)
  | 0, _ => none
  | n+1, s => parseObjectLoopF n (pAdvance s) []

/-- The loop of `parseObject`: each early `return` of an Illegal value
exits the whole function with the state unchanged at that point. -/
def parseObjectLoopF : Nat → PState → List (GoStr × Value) → Option (Value × PState)
  | 0, _, _ => none
  | n+1, s, acc =>
    if s.cur.typ != .RBRACE && s.cur.typ != .EOF then
      if s.cur.typ != .IDENT then
        some (.mk "Illegal" (gs "expected object key") [] [], s)
      else
        let key := s.cur.literal
        let s1 := pAdvance s
        if s1.cur.typ != .COLON then
          some (.mk "Illegal" (gs "expected colon in object") [] [], s1)
        else
          match parseValueF n (pAdvance s1) with
          | none => none
          | some (v, s2) =>
            let s3 := if s2.cur.typ == .COMMA then pAdvance s2 else s2
            parseObjectLoopF n s3 (mapInsert acc key v)
    else some (.mk "Object" [] acc [], pAdvance s)

/-- Parser `parseArray` from parser.go, with fuel. -/
def parseArrayF : Nat → PState → Option (Value × PState)
  | 0, _ => none
  | n+1, s => parseArrayLoopF n (pAdvance s) []

/-- The loop of `parseArray`. -/
def parseArrayLoopF : Nat → PState → List Value → Option (Value × PState)
  | 0, _, _ => none
  | n+1, s, acc =>
    if s.cur.typ != .RBRACKET && s.cur.typ != .EOF then
      match parseValueF n s with
      | none => none
      | some (v, s1) =>
        let s2 := if s1.cur.typ == .COMMA then pAdvance s1 else s1
        parseArrayLoopF n s2 (acc ++ [v])
    else some (.mk "Array" [] [] acc, pAdvance s)
end

mutual
/-- Parser `parseField` from parser.go, with fuel.  Returns `none` in the
inner option (a nil `*Field`) without advancing when the current token is
not an identifier. -/
def parseFieldF : Nat → PState → Option (Option Field × PState)
  | 0, _ => none
  | n+1, s =>
    if s.cur.typ == .IDENT then
      let nm := s.cur.literal
      let s1 := pAdvance s
      match (if s1.cur.typ == .LPAREN then parseArgumentsF n s1 else some ([], s1)) with
      | none => none
      | some (args, s2) =>
        if s2.cur.typ == .LBRACE then
          match parseSelectionSetF n s2 with
          | none => none
          | some (ss, s3) => some (some (.mk nm args (some ss)), s3)
        else some (some (.mk nm args none), s2)
    else some (none, s)

/-- Parser `parseArguments` from parser.go, with fuel: skips the opening
paren and runs the argument loop. -/
def parseArgumentsF : Nat → PState → Option (List Argument × PState)
  | 0, _ => none
  | n+1, s => parseArgsLoopF n (pAdvance s) []

/-- The loop of `parseArguments`.  A token that is neither an identifier,
a comma, a closing paren nor EOF leaves the state unchanged, so the Go
loop never exits on such input. -/
def parseArgsLoopF : Nat → PState → List Argument → Option (List Argument × PState)
  | 0, _, _ => none
  | n+1, s, acc =>
    if s.cur.typ != .RPAREN && s.cur.typ != .EOF then
      if s.cur.typ == .IDENT then
        let nm := s.cur.literal
        let s1 := pAdvance s
        if s1.cur.typ == .COLON then
          match parseValueF n (pAdvance s1) with
          | none => none
          | some (v, s2) =>
            let s3 := if s2.cur.typ == .COMMA then pAdvance s2 else s2
            parseArgsLoopF n s3 (acc ++ [⟨nm, some v⟩])
        else
          let s3 := if s1.cur.typ == .COMMA then pAdvance s1 else s1
          parseArgsLoopF n s3 (acc ++ [⟨nm, none⟩])
      else
        let s3 := if s.cur.typ == .COMMA then pAdvance s else s
        parseArgsLoopF n s3 acc
    else some (acc, pAdvance s)

/-- Parser `parseSelection` from parser.go: returns p.parseField()
converted to the `Selection` interface, so a nil `*Field` becomes the
non-nil interface value `nilField`. -/
def parseSelectionF : Nat → PState → Option (Selection × PState)
  | 0, _ => none
  | n+1, s =>
    match parseFieldF n s with
    | none => none
    | some (f?, s1) =>
      some ((match f? with | some f => Selection.field f | none => Selection.nilField), s1)

/-- Parser `parseSelectionSet` from parser.go, with fuel: skips the
opening brace and runs the selection loop. -/
def parseSelectionSetF : Nat → PState → Option (SelectionSet × PState)
  | 0, _ => none
  | n+1, s => parseSelSetLoopF n (pAdvance s) []

/-- The loop of `parseSelectionSet`.  The Go guard `sel != nil` is always
true (parseSelection never returns a nil interface), so every iteration
appends.  A token that is neither an identifier, a comma, a closing brace
nor EOF leaves the state unchanged, so the Go loop never exits on such
input. -/
def parseSelSetLoopF : Nat → PState → List Selection → Option (SelectionSet × PState)
  | 0, _, _ => none
  | n+1, s, acc =>
    if s.cur.typ != .RBRACE && s.cur.typ != .EOF then
      match parseSelectionF n s with
      | none => none
      | some (sel, s1) =>
        let s2 := if s1.cur.typ == .COMMA then pAdvance s1 else s1
        parseSelSetLoopF n s2 (acc ++ [sel])
    else some (acc, pAdvance s)
end

/-- Parser `parseTypeField` from parser.go, with fuel. -/
def parseTypeFieldF : Nat → PState → Option (Option Field × PState)
  | 0, _ => none
  | _+1, s =>
    if s.cur.typ != .IDENT then some (none, s)
    else
      let nm := s.cur.literal
      let s1 := pAdvance s
      if s1.cur.typ == .COLON then
        let s2 := pAdvance s1
        let s3 := if s2.cur.typ == .IDENT then pAdvance s2 else s2
        some (some (.mk nm [] none), s3)
      else some (some (.mk nm [] none), s1)

/-- The field loop of `skipTypeDefinition` in parser.go, including its
iteration safeguard (break once the incremented counter exceeds 10000). -/
def skipTypeDefLoopF : Nat → PState → List Field → Nat → Option (List Field × PState)
  | 0, _, _, _ => none
  | n+1, s, fields, iter =>
    if s.cur.typ != .RBRACE && s.cur.typ != .EOF then
      let iter1 := iter + 1
      if iter1 > 10000 then some (fields, s)
      else
        match parseTypeFieldF n s with
        | none => none
        | some (f?, s1) =>
          let q := match f? with
            | some f => (fields ++ [f], s1)
            | none => (fields, pAdvance s1)
          let s2 := if q.2.cur.typ == .COMMA then pAdvance q.2 else q.2
          skipTypeDefLoopF n s2 q.1 iter1
    else some (fields, s)

/-- Parser `skipTypeDefinition` from parser.go, with fuel: a `none` in
the inner option models a nil `Definition` returned on malformed input. -/
def skipTypeDefinitionF : Nat → PState → Option (Option Definition × PState)
  | 0, _ => none
  | n+1, s =>
    let s1 := pAdvance s
    if s1.cur.typ != .IDENT then some (none, s1)
    else
      let nm := s1.cur.literal
      let s2 := pAdvance s1
      if s2.cur.typ != .LBRACE then some (none, s2)
      else
        match skipTypeDefLoopF n (pAdvance s2) [] 0 with
        | none => none
        | some (fields, s3) =>
          let s4 := if s3.cur.typ == .RBRACE then pAdvance s3 else s3
          some (some (.typeDef nm fields), s4)

/-- Parser `skipBlock` from parser.go, with fuel, including its depth
counter and iteration safeguard.  It is not called by the current parser
but is part of the sources. -/
def skipBlockF : Nat → PState → Int → Nat → Option PState
  | 0, _, _, _ => none
  | n+1, s, depth, iter =>
    if s.cur.typ != .EOF then
      if iter > 10000 then some s
      else if s.cur.typ == .LBRACE then skipBlockF n (pAdvance s) (depth + 1) (iter + 1)
      else if s.cur.typ == .RBRACE then
        if depth - 1 == 0 then some (pAdvance s)
        else skipBlockF n (pAdvance s) (depth - 1) (iter + 1)
      else skipBlockF n (pAdvance s) depth (iter + 1)
    else some s

/-- The variable-definition loop of `parseVariableDefinitions` in
parser.go.  On a dollar not followed by an identifier the whole function
returns early without skipping the closing paren. -/
def parseVarDefsLoopF : Nat → PState → List VariableDefinition →
    Option (List VariableDefinition × PState)
  | 0, _, _ => none
  | n+1, s, acc =>
    if s.cur.typ != .RPAREN && s.cur.typ != .EOF then
      if s.cur.typ == .DOLLAR then
        let s1 := pAdvance s
        if s1.cur.typ != .IDENT then some (acc, s1)
        else
          let vname := s1.cur.literal
          let s2 := pAdvance s1
          match (if s2.cur.typ == .COLON then
                   match parseTypeF n (pAdvance s2) with
                   | none => none
                   | some (t?, s3) =>
                     some ((match t? with | some t => t | none => GType.zero), s3)
                 else some (GType.zero, s2)) with
          | none => none
          | some (ty, s3) =>
            let s4 := if s3.cur.typ == .COMMA then pAdvance s3 else s3
            parseVarDefsLoopF n s4 (acc ++ [⟨vname, ty⟩])
      else
        let s4 := if s.cur.typ == .COMMA then pAdvance s else s
        parseVarDefsLoopF n s4 acc
    else some (acc, pAdvance s)

/-- Parser `parseVariableDefinitions` from parser.go, with fuel. -/
def parseVariableDefinitionsF : Nat → PState →
    Option (List VariableDefinition × PState)
  | 0, _ => none
  | n+1, s => parseVarDefsLoopF n (pAdvance s) []

/-- Parser `parseOperationDefinition` from parser.go, with fuel. -/
def parseOperationDefinitionF : Nat → PState → Option (OperationDefinition × PState)
  | 0, _ => none
  | n+1, s =>
    if isOpKeyword s.cur.literal then
      let operation := s.cur.literal
      let s1 := pAdvance s
      let q := if s1.cur.typ == .IDENT then (s1.cur.literal, pAdvance s1) else ([], s1)
      match (if q.2.cur.typ == .LPAREN then parseVariableDefinitionsF n q.2
             else some ([], q.2)) with
      | none => none
      | some (vds, s3) =>
        if s3.cur.typ == .LBRACE then
          match parseSelectionSetF n s3 with
          | none => none
          | some (ss, s4) => some (⟨operation, q.1, vds, some ss⟩, s4)
        else some (⟨operation, q.1, vds, none⟩, s3)
    else
      if s.cur.typ == .LBRACE then
        match parseSelectionSetF n s with
        | none => none
        | some (ss, s1) => some (⟨gs "query", [], [], some ss⟩, s1)
      else some (⟨gs "query", [], [], none⟩, s)

/-- Parser `parseDefinition` from parser.go, with fuel: the keyword tests
compare token literals, not token types. -/
def parseDefinitionF : Nat → PState → Option (Option Definition × PState)
  | 0, _ => none
  | n+1, s =>
    if isOpKeyword s.cur.literal then
      match parseOperationDefinitionF n s with
      | none => none
      | some (o, s1) => some (some (.op o), s1)
    else if s.cur.typ == .LBRACE then
      match parseOperationDefinitionF n s with
      | none => none
      | some (o, s1) => some (some (.op o), s1)
    else if s.cur.literal == gs "type" then
      skipTypeDefinitionF n s
    else some (none, pAdvance s)

/-- The top-level loop of `ParseDocument` in parser.go. -/
def parseDocLoopF : Nat → PState → List Definition → Option (List Definition × PState)
  | 0, _, _ => none
  | n+1, s, acc =>
    if s.cur.typ == .EOF then some (acc, s)
    else
      match parseDefinitionF n s with
      | none => none
      | some (d?, s1) =>
        let acc1 := match d? with | some d => acc ++ [d] | none => acc
        let s2 := if s1.cur.typ == .EOF then s1 else pAdvance s1
        parseDocLoopF n s2 acc1

/-- Parser `ParseDocument` from parser.go, with fuel: the returned list
is the document's Definitions. -/
def parseDocumentF : Nat → PState → Option (List Definition × PState)
  | 0, _ => none
  | n+1, s => parseDocLoopF n s []

/-- Universe of Go `interface\x7b\x7d` values as far as the executor inspects
them: strings, ints, bools, the nil interface, pointers (nil or with a
target), structs (ordered fields: name, optional json tag value, field
value), slices (the flag distinguishes Go's nil slice from an empty
non-nil slice, a difference visible in the JSON encoding), and maps. -/
inductive GoVal where
  | str (s : GoStr)
  | int (n : Int)
  | bool (b : Bool)
  | nilv
  | ptr (target : Option GoVal)
  | record (fields : List (GoStr × Option GoStr × GoVal))
  | slice (isNil : Bool) (elems : List GoVal)
  | mapv (entries : List (GoStr × GoVal))

/-- Errors produced inside selection-set execution, one constructor per
error site in graphql.go (Go errors are fmt.Errorf strings; the spec's
taxonomy classifies them by their producing site, which the constructors
record).  `resolverErr` stands for an arbitrary error returned by a
user-registered resolver, and `goPanic` models a runtime panic (the nil
`*Field` or nil `*Value` dereferences reachable from parser output),
which in Go is a crash, not a returned error. -/
inductive ExecErr where
  | noResolver (field : GoStr)
  | noReflectField (field : GoStr)
  | sourceIsNil
  | sourceNotStruct
  | varNotProvided (name : GoStr)
  | atoiErr (lit : GoStr)
  | resolverErr (msg : GoStr)
  | goPanic
deriving DecidableEq, Repr

/-- Outcomes of `executeDocument`: its two own error sites (the spec's
DocumentFault), the nil-SelectionSet dereference panic, or an execution
error propagated unchanged from the selection set. -/
inductive TopErr where
  | noDefinitions
  | unsupportedDefinition
  | nilSelectionSetPanic
  | execErr (e : ExecErr)
deriving DecidableEq, Repr

/-- Resolver signature from registry.go: `func(source, args) (result, error)`. -/
abbrev Resolver := GoVal → List (GoStr × GoVal) → Except ExecErr GoVal

/-- A resolver registry (a Go map from field name to resolver), as a
lookup function. -/
abbrev Regs := GoStr → Option Resolver

/-- Lookup in a Go map modelled as an association list. -/
def lookupEnv : List (GoStr × GoVal) → GoStr → Option GoVal
  | [], _ => none
  | (k, v) :: rest, key => if k == key then some v else lookupEnv rest key

/-- ASCII lower-casing of a byte. -/
def asciiLower (b : Nat) : Nat := if 65 ≤ b && b ≤ 90 then b + 32 else b

/-- Go `strings.EqualFold`, restricted to its ASCII behaviour
(case-insensitive comparison); every identifier compared by the executor
in this development is ASCII. -/
def asciiEqualFold (a b : GoStr) : Bool := a.map asciiLower == b.map asciiLower

/-- First comma-delimited segment of a struct tag:
`strings.Split(tag, ",")[0]`. -/
def tagHead (t : GoStr) : GoStr := t.takeWhile (fun b => !(b == 44))

/-- Go `strconv.Atoi` on a 64-bit platform: optional sign, then a
non-empty digit run, with the int64 range check; any other input is an
error.  Only the error flag is used by the callers that survive an
error. -/
def goAtoi (s : GoStr) : Except Unit Int :=
  match s with
  | [] => .error ()
  | c :: rest =>
    let q : Bool × List Nat :=
      if c == 43 then (false, rest)
      else if c == 45 then (true, rest)
      else (false, c :: rest)
    if q.2 == [] then .error ()
    else if q.2.all (fun d => goIsDigit d) then
      let mag : Nat := q.2.foldl (fun a d => a * 10 + (d - 48)) 0
      if q.1 then
        if mag ≤ 2 ^ 63 then .ok (-(mag : Int)) else .error ()
      else
        if mag ≤ 2 ^ 63 - 1 then .ok (mag : Int) else .error ()
    else .error ()

/-- The field loop of `reflectResolve` in graphql.go: for each struct
field in declaration order, first compare the field identifier
case-insensitively, then the json tag's first segment if a tag is
present; the first hit wins. -/
def reflectLoop : List (GoStr × Option GoStr × GoVal) → GoStr → Except ExecErr GoVal
  | [], nm => .error (.noReflectField nm)
  | (fname, tag, v) :: rest, nm =>
    if asciiEqualFold fname nm then .ok v
    else
      match tag with
      | some t => if asciiEqualFold (tagHead t) nm then .ok v else reflectLoop rest nm
      | none => reflectLoop rest nm

/-- Go `reflectResolve` from graphql.go: dereference a pointer source
(nil pointer is an error), require a struct, then search its fields. -/
def reflectResolve (source : GoVal) (field : Field) : Except ExecErr GoVal :=
  match source with
  | .ptr none => .error .sourceIsNil
  | .ptr (some (.record fields)) => reflectLoop fields field.name
  | .record fields => reflectLoop fields field.name
  | _ => .error .sourceNotStruct

mutual
/-- Go `buildValue` from graphql.go: convert a Value AST node to a Go
value, recursively for objects and arrays.  An absent variable yields
nil silently; a malformed Int literal yields 0.  The Array case starts
from an empty non-nil slice.  (Go ranges over the ObjectFields map in
unspecified order; as a map value the result does not depend on it, and
the association list keeps the AST order.) -/
def buildValue (v : Value) (vars : List (GoStr × GoVal)) : GoVal :=
  match v with
  | .mk kind lit obj lst =>
    if kind == "Variable" then
      match lookupEnv vars lit with
      | some x => x
      | none => .nilv
    else if kind == "Int" then
      match goAtoi lit with
      | .ok i => .int i
      | .error _ => .int 0
    else if kind == "String" then .str lit
    else if kind == "Boolean" then .bool (lit == gs "true")
    else if kind == "Object" then .mapv (buildValueObj obj vars)
    else if kind == "Array" then .slice false (buildValueList lst vars)
    else .str lit

/-- The object recursion of `buildValue`. -/
def buildValueObj (fs : List (GoStr × Value)) (vars : List (GoStr × GoVal)) :
    List (GoStr × GoVal) :=
  match fs with
  | [] => []
  | (k, v) :: rest => (k, buildValue v vars) :: buildValueObj rest vars

/-- The array recursion of `buildValue`. -/
def buildValueList (vs : List Value) (vars : List (GoStr × GoVal)) : List GoVal :=
  match vs with
  | [] => []
  | v :: rest => buildValue v vars :: buildValueList rest vars
end

/-- The loop of `buildArgs` in graphql.go.  A nil argument Value makes
buildValue dereference a nil pointer, a panic, modelled as `none`. -/
def buildArgsLoop : List Argument → List (GoStr × GoVal) → List (GoStr × GoVal) →
    Option (List (GoStr × GoVal))
  | [], _, acc => some acc
  | a :: rest, vars, acc =>
    match a.value with
    | none => none
    | some v => buildArgsLoop rest vars (mapInsert acc a.name (buildValue v vars))

/-- Go `buildArgs` from graphql.go: build the name-to-value argument map. -/
def buildArgs (f : Field) (vars : List (GoStr × GoVal)) :
    Option (List (GoStr × GoVal)) :=
  buildArgsLoop f.arguments vars []

/-- Go `resolveArgument` from graphql.go: the independent scalar path.
Unlike buildValue it fails on a missing variable and propagates the
Atoi error; its default case returns the literal with a nil error.  A
nil argument Value is a panic. -/
def resolveArgument (arg : Argument) (vars : List (GoStr × GoVal)) :
    Except ExecErr GoVal :=
  match arg.value with
  | none => .error .goPanic
  | some (.mk kind lit _ _) =>
    if kind == "Int" then
      match goAtoi lit with
      | .ok i => .ok (.int i)
      | .error _ => .error (.atoiErr lit)
    else if kind == "String" then .ok (.str lit)
    else if kind == "Boolean" then .ok (.bool (lit == gs "true"))
    else if kind == "Variable" then
      match lookupEnv vars lit with
      | some v => .ok v
      | none => .error (.varNotProvided lit)
    else .ok (.str lit)

/-- Go `resolveField` from graphql.go: with a nil source, try the query
registry then the mutation registry (building the argument map and
invoking the resolver on a hit), and fail if neither has the field; with
a non-nil source, fall back to reflective lookup (registries are not
consulted). -/
def resolveField (q m : Regs) (source : GoVal) (f : Field)
    (vars : List (GoStr × GoVal)) : Except ExecErr GoVal :=
  match source with
  | .nilv =>
    match q f.name with
    | some r =>
      match buildArgs f vars with
      | none => .error .goPanic
      | some args => r .nilv args
    | none =>
      match m f.name with
      | some r =>
        match buildArgs f vars with
        | none => .error .goPanic
        | some args => r .nilv args
      | none => .error (.noResolver f.name)
  | src => reflectResolve src f

/-- Go `append` on a slice value: the result is non-nil and gains the
element at the end. -/
def goAppend (arr : Bool × List GoVal) (x : GoVal) : Bool × List GoVal :=
  (false, arr.2 ++ [x])

/-- The slice loop of `resolveNestedSelection` in graphql.go,
parameterized by the per-element execution (executeSelectionSet applied
to the nested selection set): starts from the nil slice
`var arr []interface\x7b\x7d` and appends one result map per element,
failing fast. -/
def execSliceLoop (execss : GoVal → Except ExecErr (List (GoStr × GoVal))) :
    List GoVal → Bool × List GoVal → Except ExecErr (Bool × List GoVal)
  | [], arr => .ok arr
  | item :: rest, arr =>
    match execss item with
    | .error e => .error e
    | .ok sub => execSliceLoop execss rest (goAppend arr (.mapv sub))

/-- The body of Go `resolveNestedSelection` from graphql.go, with the
recursive executeSelectionSet call abstracted as `execss` (the function
`resolveNestedSelection` below ties the knot): nil pointer and
non-struct, non-slice values pass through unchanged; a struct or a
pointer to a struct is executed (the pointer itself is passed as the
source); a slice fans out per element. -/
def resolveNestedWith (execss : GoVal → Except ExecErr (List (GoStr × GoVal)))
    (res : GoVal) : Except ExecErr GoVal :=
  match res with
  | .ptr none => .ok res
  | .ptr (some (.record fs)) =>
    match execss (.ptr (some (.record fs))) with
    | .error e => .error e
    | .ok mp => .ok (.mapv mp)
  | .record fs =>
    match execss (.record fs) with
    | .error e => .error e
    | .ok mp => .ok (.mapv mp)
  | .slice _ elems =>
    match execSliceLoop execss elems (true, []) with
    | .error e => .error e
    | .ok arr => .ok (.slice arr.1 arr.2)
  | other => .ok other

mutual
/-- Go `executeSelectionSet` from graphql.go: run the selection loop
with an empty result map. -/
def executeSelectionSet (q m : Regs) (source : GoVal) (ss : SelectionSet)
    (vars : List (GoStr × GoVal)) : Except ExecErr (List (GoStr × GoVal)) :=
  executeSelectionSetLoop q m source ss vars []
termination_by (sizeOf ss, 1)

/-- The selection loop of `executeSelectionSet`: non-Field selections
are skipped; a typed-nil `*Field` selection dereferences a nil pointer
inside resolveField (a panic); a Field is resolved, recursing through
resolveNestedSelection when it has a nested selection set, and the loop
fails fast on the first error. -/
def executeSelectionSetLoop (q m : Regs) (source : GoVal) (sels : List Selection)
    (vars : List (GoStr × GoVal)) (result : List (GoStr × GoVal)) :
    Except ExecErr (List (GoStr × GoVal)) :=
  match sels with
  | [] => .ok result
  | .other :: rest => executeSelectionSetLoop q m source rest vars result
  | .nilField :: _ => .error .goPanic
  | .field (Field.mk fn fa fss) :: rest =>
    match resolveField q m source (.mk fn fa fss) vars with
    | .error e => .error e
    | .ok res =>
      match fss with
      | some ss1 =>
        match resolveNestedWith (fun item => executeSelectionSet q m item ss1 vars) res with
        | .error e => .error e
        | .ok nested =>
          executeSelectionSetLoop q m source rest vars (mapInsert result fn nested)
      | none => executeSelectionSetLoop q m source rest vars (mapInsert result fn res)
termination_by (sizeOf sels, 0)
end

/-- Go `resolveNestedSelection` from graphql.go, assembled from its body
and the recursive call to executeSelectionSet. -/
def resolveNestedSelection (q m : Regs) (res : GoVal) (ss : SelectionSet)
    (vars : List (GoStr × GoVal)) : Except ExecErr GoVal :=
  resolveNestedWith (fun item => executeSelectionSet q m item ss vars) res

/-- Go `executeDocument` from graphql.go: fail on an empty document or a
first definition that is not an operation definition; otherwise execute
the first definition's selection set (a nil selection set is a nil
pointer dereference inside executeSelectionSet, a panic) and wrap the
result under "data".  Definitions after the first are ignored. -/
def executeDocument (q m : Regs) (doc : List Definition)
    (vars : List (GoStr × GoVal)) : Except TopErr (List (GoStr × GoVal)) :=
  match doc with
  | [] => .error .noDefinitions
  | d :: _ =>
    match d with
    | .op o =>
      match o.selectionSet with
      | none => .error .nilSelectionSetPanic
      | some ss =>
        match executeSelectionSet q m .nilv ss vars with
        | .error e => .error (.execErr e)
        | .ok data => .ok [(gs "data", .mapv data)]
    | _ => .error .unsupportedDefinition

/-- The spec's DocumentFault classification: the two error sites of
executeDocument itself. -/
def TopErr.isDocumentFault : TopErr → Bool
  | .noDefinitions => true
  | .unsupportedDefinition => true
  | _ => false

/-- Whether an executeDocument outcome is a DocumentFault. -/
def resultIsDocumentFault : Except TopErr (List (GoStr × GoVal)) → Bool
  | .error e => e.isDocumentFault
  | .ok _ => false

/-- C2 counterexample: byte 0xC0 is not ASCII, not punctuation, not a
quote, not a digit, not an underscore, yet the lexer starts an identifier
with it (Go's isLetter applies unicode.IsLetter to the byte's Latin-1
code point, and 0xC0 is a letter there), instead of emitting an Illegal
token as the claim states. -/
theorem c2_counterexample :
    goIsLetter 0xC0 = true ∧ (nextToken [0xC0]).1 = ⟨.IDENT, [0xC0]⟩ := by
  constructor
  · decide
  · decide

/-- C2 amended: a byte that is not recognized punctuation, not a double
quote, not a digit, not a letter in the sense of Go's isLetter (ASCII
letters, the underscore, and the Latin-1 letter bytes 0xAA, 0xB5, 0xBA,
0xC0-0xD6, 0xD8-0xF6, 0xF8-0xFF), not whitespace and not NUL is lexed
as an Illegal token. -/
theorem c2_lexer_illegal_amended (b : Nat) (hp : recognizedPunct b = false)
    (hq : b ≠ 34) (hd : goIsDigit b = false) (hl : goIsLetter b = false)
    (hw : isWhitespaceByte b = false) (hz : b ≠ 0) :
    (nextToken [b]).1.typ = .ILLEGAL := by
  simp only [recognizedPunct, Bool.or_eq_false_iff] at hp
  obtain ⟨⟨⟨⟨⟨⟨⟨⟨⟨⟨⟨h1, h2⟩, h3⟩, h4⟩, h5⟩, h6⟩, h7⟩, h8⟩, h9⟩, h10⟩, h11⟩, h12⟩ := hp
  unfold nextToken
  simp [skipWhitespace, hw, h1, h2, h3, h4, h5, h6, h7, h8, h9, h10, h11, h12,
    hq, hd, hl, hz]

/-- Witness for the amended C2 theorem at the byte 64, the "@" of the
repository's own lexer test. -/
theorem c2_lexer_illegal_amended_witness :
    recognizedPunct 64 = false ∧ (nextToken [64]).1.typ = .ILLEGAL :=
  ⟨by decide,
   c2_lexer_illegal_amended 64 (by decide) (by decide) (by decide) (by decide)
     (by decide) (by decide)⟩

/-- The parser state reached inside the selection-set loop on the
three-byte input LBRACE "5" RBRACE: the current token is the integer, the
peek token is the closing brace, and the lexer is exhausted.  parseField
returns nil without advancing on a non-identifier, the comma check does
not fire on an integer, so the loop re-enters with this very state. -/
def stuckState : PState := ⟨⟨.INT, [53]⟩, ⟨.RBRACE, [125]⟩, []⟩

/-- The selection-set loop never completes from the stuck state, at any
fuel: each iteration consumes no token. -/
theorem parseSelSetLoop_stuck (n : Nat) :
    ∀ acc, parseSelSetLoopF n stuckState acc = none := by
  induction n with
  | zero => intro acc; rfl
  | succ n ih =>
    intro acc
    match n with
    | 0 => rfl
    | 1 => rfl
    | (m+2) => exact ih (acc ++ [Selection.nilField])

/-- parseSelectionSet never completes from the state whose current token
is the opening brace of LBRACE "5" RBRACE. -/
theorem parseSelectionSet_stuck (n : Nat) :
    parseSelectionSetF n ⟨⟨.LBRACE, [123]⟩, ⟨.INT, [53]⟩, [125]⟩ = none := by
  cases n with
  | zero => rfl
  | succ n => exact parseSelSetLoop_stuck n []

/-- parseOperationDefinition never completes from the same state: the
current token is not an operation keyword, so it falls through to the
selection set. -/
theorem parseOperationDefinition_stuck (n : Nat) :
    parseOperationDefinitionF n ⟨⟨.LBRACE, [123]⟩, ⟨.INT, [53]⟩, [125]⟩ = none := by
  cases n with
  | zero => rfl
  | succ n =>
    have h := parseSelectionSet_stuck n
    have k1 : isOpKeyword [123] = false := by decide
    have k2 : (TokenType.LBRACE == TokenType.LBRACE) = true := by decide
    simp [parseOperationDefinitionF, k1, k2, h]

/-- parseDefinition never completes from the same state: the literal is
not a keyword and the token is an opening brace. -/
theorem parseDefinition_stuck (n : Nat) :
    parseDefinitionF n ⟨⟨.LBRACE, [123]⟩, ⟨.INT, [53]⟩, [125]⟩ = none := by
  cases n with
  | zero => rfl
  | succ n =>
    have h := parseOperationDefinition_stuck n
    have k1 : isOpKeyword [123] = false := by decide
    have k2 : (TokenType.LBRACE == TokenType.LBRACE) = true := by decide
    simp [parseDefinitionF, k1, k2, h]

/-- The ParseDocument loop never completes from the same state. -/
theorem parseDocLoop_stuck (n : Nat) :
    ∀ acc, parseDocLoopF n ⟨⟨.LBRACE, [123]⟩, ⟨.INT, [53]⟩, [125]⟩ acc = none := by
  cases n with
  | zero => intro acc; rfl
  | succ n =>
    intro acc
    have h := parseDefinition_stuck n
    have k1 : (TokenType.LBRACE == TokenType.EOF) = false := by decide
    simp [parseDocLoopF, k1, h]

/-- C1: ParseDocument does not terminate on every finite input.  On the
three-byte input LBRACE "5" RBRACE the selection-set loop of
parseSelectionSet neither advances past the integer token (parseField
returns nil without consuming it and the comma check does not fire) nor
has an iteration safeguard, so the embedded parser returns `none` at
every fuel value: the Go loop runs forever. -/
theorem c1_parseDocument_divergence (n : Nat) :
    parseDocumentF n (initPState [123, 53, 125]) = none := by
  have e : initPState [123, 53, 125] =
      ⟨⟨.LBRACE, [123]⟩, ⟨.INT, [53]⟩, [125]⟩ := by decide
  rw [e]
  cases n with
  | zero => rfl
  | succ n => exact parseDocLoop_stuck n []

/-- C3 counterexample: parsing the input "query" (no braces) yields a
document whose single definition is an operation definition with a nil
selection set, and executeDocument on that document dereferences the nil
selection set (a crash) instead of returning a data map, although the
first definition is an OperationDefinition. -/
theorem c3_counterexample :
    parseDocumentF 10 (initPState (gs "query")) =
      some ([.op ⟨gs "query", [], [], none⟩], ⟨⟨.EOF, []⟩, ⟨.EOF, []⟩, []⟩) ∧
    executeDocument (fun _ => none) (fun _ => none)
      [.op ⟨gs "query", [], [], none⟩] [] = .error .nilSelectionSetPanic := by
  exact ⟨rfl, rfl⟩

/-- C3 amended: executeDocument fails with its "no definitions found"
fault on an empty document and with its "unsupported definition type"
fault when the first definition is not an operation definition; on a
first operation definition it crashes if the selection set is nil and
otherwise maps the selection-set outcome under "data"; an outcome is a
DocumentFault exactly when the document is empty or its first definition
is not an operation definition; definitions after the first are never
examined. -/
theorem c3_executeDocument_amended (q m : Regs) (vars : List (GoStr × GoVal)) :
    (executeDocument q m [] vars = .error .noDefinitions) ∧
    (∀ nm fs rest, executeDocument q m (.typeDef nm fs :: rest) vars =
        .error .unsupportedDefinition) ∧
    (∀ rest, executeDocument q m (.otherDef :: rest) vars =
        .error .unsupportedDefinition) ∧
    (∀ o rest, executeDocument q m (.op o :: rest) vars =
        (match o.selectionSet with
         | none => .error .nilSelectionSetPanic
         | some ss =>
           match executeSelectionSet q m .nilv ss vars with
           | .error e => .error (.execErr e)
           | .ok data => .ok [(gs "data", .mapv data)])) ∧
    (∀ doc, resultIsDocumentFault (executeDocument q m doc vars) =
        (match doc with
         | [] => true
         | .op _ :: _ => false
         | _ :: _ => true)) ∧
    (∀ d r1 r2, executeDocument q m (d :: r1) vars = executeDocument q m (d :: r2) vars) := by
  refine ⟨rfl, fun nm fs rest => rfl, fun rest => rfl, fun o rest => rfl, ?_, ?_⟩
  · intro doc
    match doc with
    | [] => rfl
    | .typeDef nm fs :: rest => rfl
    | .otherDef :: rest => rfl
    | .op o :: rest =>
      cases ho : o.selectionSet with
      | none => simp [executeDocument, ho, resultIsDocumentFault, TopErr.isDocumentFault]
      | some ss =>
        cases hx : executeSelectionSet q m .nilv ss vars with
        | error e =>
          simp [executeDocument, ho, hx, resultIsDocumentFault, TopErr.isDocumentFault]
        | ok data =>
          simp [executeDocument, ho, hx, resultIsDocumentFault, TopErr.isDocumentFault]
  · intro d r1 r2
    cases d with
    | op o => rfl
    | typeDef nm fs => rfl
    | otherDef => rfl

/-- The matching test described by the spec's words for reflective
lookup: a struct field matches the requested name when its identifier
matches case-insensitively, or when its serialization tag is present and
the tag's first comma-delimited segment matches. -/
def specReflectMatch (nm : GoStr) (fl : GoStr × Option GoStr × GoVal) : Bool :=
  asciiEqualFold fl.1 nm ||
    (match fl.2.1 with
     | some t => asciiEqualFold (tagHead t) nm
     | none => false)

/-- The field loop of reflectResolve returns the value of the first
matching field in declaration order, and the reflection fault when no
field matches. -/
theorem reflectLoop_find (nm : GoStr) :
    ∀ fields : List (GoStr × Option GoStr × GoVal),
      reflectLoop fields nm =
        (match fields.find? (specReflectMatch nm) with
         | some fl => .ok fl.2.2
         | none => .error (.noReflectField nm)) := by
  intro fields
  induction fields with
  | nil => rfl
  | cons fl rest ih =>
    obtain ⟨fname, tag, v⟩ := fl
    by_cases h1 : asciiEqualFold fname nm
    · simp [reflectLoop, List.find?, specReflectMatch, h1]
    · cases tag with
      | none => simp [reflectLoop, List.find?, specReflectMatch, h1, ih]
      | some t =>
        by_cases h2 : asciiEqualFold (tagHead t) nm
        · simp [reflectLoop, List.find?, specReflectMatch, h1, h2]
        · simp [reflectLoop, List.find?, specReflectMatch, h1, h2, ih]

/-- C4: for a non-nil source record (a struct value or a non-nil pointer
to one) and a requested field name, reflectResolve returns the value of
the first field, in declaration order, whose identifier matches the
name case-insensitively or whose serialization tag's first
comma-delimited segment matches it, and the resolution fault when no
field matches either way. -/
theorem c4_reflectResolve_first_match (fields : List (GoStr × Option GoStr × GoVal))
    (fa : List Argument) (oss : Option SelectionSet) (nm : GoStr) :
    (reflectResolve (.record fields) (.mk nm fa oss) =
      (match fields.find? (specReflectMatch nm) with
       | some fl => .ok fl.2.2
       | none => .error (.noReflectField nm))) ∧
    (reflectResolve (.ptr (some (.record fields))) (.mk nm fa oss) =
      (match fields.find? (specReflectMatch nm) with
       | some fl => .ok fl.2.2
       | none => .error (.noReflectField nm))) := by
  constructor
  · exact reflectLoop_find nm fields
  · exact reflectLoop_find nm fields

/-- A concrete registry resolving field "a" (byte 97) to 1 and field "b"
(byte 98) to 2. -/
def abRegs : Regs := fun n =>
  if n == [97] then some (fun _ _ => .ok (.int 1))
  else if n == [98] then some (fun _ _ => .ok (.int 2))
  else none

/-- A concrete registry resolving "hello" to the string "world", as the
repository's own tests do. -/
def helloRegs : Regs :=
  fun n => if n == gs "hello" then some (fun _ _ => .ok (.str (gs "world"))) else none

/-- The empty registry. -/
def emptyRegs : Regs := fun _ => none

/-- C5 counterexample: parsing the six-byte input LBRACE "a" COMMA COMMA
"b" RBRACE yields a selection set containing a typed-nil Field selection
between the two fields, and executing that selection set with resolvers
for both "a" and "b" crashes on the nil Field (a nil pointer dereference
inside resolveField) instead of resolving both fields or skipping the
middle selection or returning a resolution fault. -/
theorem c5_counterexample :
    parseDocumentF 20 (initPState [123, 97, 44, 44, 98, 125]) =
      some ([.op ⟨gs "query", [], [],
        some [.field (.mk [97] [] none), .nilField, .field (.mk [98] [] none)]⟩],
        ⟨⟨.EOF, []⟩, ⟨.EOF, []⟩, []⟩) ∧
    executeSelectionSet abRegs emptyRegs .nilv
      [.field (.mk [97] [] none), .nilField, .field (.mk [98] [] none)] [] =
      .error .goPanic := by
  constructor
  · rfl
  · simp [executeSelectionSet, executeSelectionSetLoop, resolveField, abRegs,
      emptyRegs, buildArgs, buildArgsLoop, Field.name, Field.arguments, mapInsert]

/-- C5 amended: the selection loop of executeSelectionSet processes
selections in declared order, skipping non-Field selections; a typed-nil
Field selection crashes; a proper Field is resolved, recursing through
resolveNestedSelection when it has a nested selection set; and the loop
fails fast, returning the first fault alone with no partial result map. -/
theorem c5_selection_loop_amended (q m : Regs) (source : GoVal)
    (vars : List (GoStr × GoVal)) :
    (∀ ss, executeSelectionSet q m source ss vars =
        executeSelectionSetLoop q m source ss vars []) ∧
    (∀ result, executeSelectionSetLoop q m source [] vars result = .ok result) ∧
    (∀ rest result, executeSelectionSetLoop q m source (.other :: rest) vars result =
        executeSelectionSetLoop q m source rest vars result) ∧
    (∀ rest result, executeSelectionSetLoop q m source (.nilField :: rest) vars result =
        .error .goPanic) ∧
    (∀ fn fa fss rest result e,
        resolveField q m source (.mk fn fa fss) vars = .error e →
        executeSelectionSetLoop q m source (.field (.mk fn fa fss) :: rest) vars result =
          .error e) ∧
    (∀ fn fa ss1 rest result r e,
        resolveField q m source (.mk fn fa (some ss1)) vars = .ok r →
        resolveNestedSelection q m r ss1 vars = .error e →
        executeSelectionSetLoop q m source (.field (.mk fn fa (some ss1)) :: rest) vars result =
          .error e) ∧
    (∀ fn fa rest result r,
        resolveField q m source (.mk fn fa none) vars = .ok r →
        executeSelectionSetLoop q m source (.field (.mk fn fa none) :: rest) vars result =
          executeSelectionSetLoop q m source rest vars (mapInsert result fn r)) ∧
    (∀ fn fa ss1 rest result r nested,
        resolveField q m source (.mk fn fa (some ss1)) vars = .ok r →
        resolveNestedSelection q m r ss1 vars = .ok nested →
        executeSelectionSetLoop q m source (.field (.mk fn fa (some ss1)) :: rest) vars result =
          executeSelectionSetLoop q m source rest vars (mapInsert result fn nested)) := by
  refine ⟨fun ss => by simp [executeSelectionSet], fun result => ?_, fun rest result => ?_,
    fun rest result => ?_, ?_, ?_, ?_, ?_⟩
  · simp [executeSelectionSetLoop]
  · simp [executeSelectionSetLoop]
  · simp [executeSelectionSetLoop]
  · intro fn fa fss rest result e h
    cases fss with
    | none => simp [executeSelectionSetLoop, h]
    | some ss1 => simp [executeSelectionSetLoop, h]
  · intro fn fa ss1 rest result r e h1 h2
    simp only [resolveNestedSelection] at h2
    simp [executeSelectionSetLoop, h1, h2]
  · intro fn fa rest result r h1
    simp [executeSelectionSetLoop, h1]
  · intro fn fa ss1 rest result r nested h1 h2
    simp only [resolveNestedSelection] at h2
    simp [executeSelectionSetLoop, h1, h2]

/-- Witness for the amended C5 theorem: a skipped non-Field selection
followed by a field with no registered resolver produces exactly that
field's resolution fault. -/
theorem c5_selection_loop_amended_witness :
    resolveField helloRegs emptyRegs .nilv (.mk (gs "missing") [] none) [] =
      .error (.noResolver (gs "missing")) ∧
    executeSelectionSetLoop helloRegs emptyRegs .nilv
      [.other, .field (.mk (gs "missing") [] none)] [] [] =
      .error (.noResolver (gs "missing")) := by
  have h := c5_selection_loop_amended helloRegs emptyRegs .nilv []
  have hr : resolveField helloRegs emptyRegs .nilv (.mk (gs "missing") [] none) [] =
      .error (.noResolver (gs "missing")) := rfl
  refine ⟨hr, ?_⟩
  rw [h.2.2.1]
  exact h.2.2.2.2.1 (gs "missing") [] none [] [] (.noResolver (gs "missing")) hr

/-- The slice loop of resolveNestedSelection, when every element executes
successfully, appends one result map per element in order: from any
accumulator it returns the accumulator itself for an empty slice and an
appended non-nil slice otherwise. -/
theorem execSliceLoop_ok (k : GoVal → Except ExecErr (List (GoStr × GoVal)))
    {elems : List GoVal} {ms : List (List (GoStr × GoVal))}
    (h : List.Forall₂ (fun it mp => k it = .ok mp) elems ms) :
    ∀ acc, execSliceLoop k elems acc =
      .ok (if elems.isEmpty then acc else (false, acc.2 ++ ms.map GoVal.mapv)) := by
  induction h with
  | nil => intro acc; rfl
  | @cons e y es ys h1 h2 ih =>
    intro acc
    have step : execSliceLoop k (e :: es) acc =
        execSliceLoop k es (false, acc.2 ++ [GoVal.mapv y]) := by
      simp [execSliceLoop, h1, goAppend]
    rw [step, ih (false, acc.2 ++ [GoVal.mapv y])]
    cases h2 with
    | nil => simp
    | cons h3 h4 => simp

/-- C6: when a field with a nested selection set resolves to an ordered
sequence and executing the nested selection set succeeds on every
element, the executor fans out per element and produces the
order-preserving sequence of the result maps (nil for an empty input
sequence, since the Go loop starts from a nil slice). -/
theorem c6_nested_slice_fanout (q m : Regs) (source : GoVal)
    (vars : List (GoStr × GoVal)) (fn : GoStr) (fa : List Argument)
    (ss1 : SelectionSet) (b : Bool) (elems : List GoVal)
    (ms : List (List (GoStr × GoVal)))
    (hres : resolveField q m source (.mk fn fa (some ss1)) vars = .ok (.slice b elems))
    (hok : List.Forall₂ (fun it mp => executeSelectionSet q m it ss1 vars = .ok mp)
      elems ms) :
    resolveNestedSelection q m (.slice b elems) ss1 vars =
      .ok (.slice elems.isEmpty (ms.map GoVal.mapv)) ∧
    executeSelectionSetLoop q m source [.field (.mk fn fa (some ss1))] vars [] =
      .ok [(fn, .slice elems.isEmpty (ms.map GoVal.mapv))] := by
  have hloop := execSliceLoop_ok (fun it => executeSelectionSet q m it ss1 vars) hok (true, [])
  have hnested : resolveNestedSelection q m (.slice b elems) ss1 vars =
      .ok (.slice elems.isEmpty (ms.map GoVal.mapv)) := by
    cases elems with
    | nil =>
      cases hok with
      | nil => simp [resolveNestedSelection, resolveNestedWith, execSliceLoop]
    | cons e es =>
      simp only [List.isEmpty_cons] at hloop ⊢
      simp [resolveNestedSelection, resolveNestedWith, hloop]
  refine ⟨hnested, ?_⟩
  simp only [resolveNestedSelection] at hnested
  simp [executeSelectionSetLoop, hres, hnested, mapInsert]

/-- The record values of the repository's fan-out test: Dummy structs
with a Name field tagged "name". -/
def aliceRecord : GoVal := .record [(gs "Name", some (gs "name"), .str (gs "Alice"))]

/-- The second record of the fan-out test. -/
def bobRecord : GoVal := .record [(gs "Name", some (gs "name"), .str (gs "Bob"))]

/-- A registry resolving "names" to the two-element record slice. -/
def namesRegs : Regs := fun n =>
  if n == gs "names" then some (fun _ _ => .ok (.slice false [aliceRecord, bobRecord]))
  else none

/-- Witness for C6, mirroring the repository's TestQuerySliceField: a
resolver returning two records, selected with a nested one-field
selection, yields the order-preserving two-element sequence of single-key
maps. -/
theorem c6_nested_slice_fanout_witness :
    executeSelectionSetLoop namesRegs emptyRegs .nilv
      [.field (.mk (gs "names") [] (some [.field (.mk (gs "name") [] none)]))] [] [] =
      .ok [(gs "names", .slice false
        [.mapv [(gs "name", .str (gs "Alice"))],
         .mapv [(gs "name", .str (gs "Bob"))]])] := by
  have halice : executeSelectionSet namesRegs emptyRegs aliceRecord
      [.field (.mk (gs "name") [] none)] [] = .ok [(gs "name", .str (gs "Alice"))] := by
    simp [executeSelectionSet, executeSelectionSetLoop, resolveField, reflectResolve,
      reflectLoop, aliceRecord, asciiEqualFold, asciiLower, tagHead, Field.name,
      mapInsert, gs]
  have hbob : executeSelectionSet namesRegs emptyRegs bobRecord
      [.field (.mk (gs "name") [] none)] [] = .ok [(gs "name", .str (gs "Bob"))] := by
    simp [executeSelectionSet, executeSelectionSetLoop, resolveField, reflectResolve,
      reflectLoop, bobRecord, asciiEqualFold, asciiLower, tagHead, Field.name,
      mapInsert, gs]
  have h := c6_nested_slice_fanout namesRegs emptyRegs .nilv [] (gs "names") []
    [.field (.mk (gs "name") [] none)] false [aliceRecord, bobRecord]
    [[(gs "name", .str (gs "Alice"))], [(gs "name", .str (gs "Bob"))]]
    rfl
    (List.Forall₂.cons halice (List.Forall₂.cons hbob List.Forall₂.nil))
  simpa using h.2

/-- C7: for a Variable-kind value, buildValue returns the bound value
when the variable is present in the environment and nil silently when it
is absent, while resolveArgument returns the bound value when present
and the "variable not provided" fault when absent. -/
theorem c7_variable_asymmetry (vars : List (GoStr × GoVal)) (an nm : GoStr)
    (obj : List (GoStr × Value)) (lst : List Value) :
    (buildValue (.mk "Variable" nm obj lst) vars =
      (match lookupEnv vars nm with
       | some v => v
       | none => .nilv)) ∧
    (resolveArgument ⟨an, some (.mk "Variable" nm obj lst)⟩ vars =
      (match lookupEnv vars nm with
       | some v => .ok v
       | none => .error (.varNotProvided nm))) := by
  constructor
  · cases h : lookupEnv vars nm with
    | none => simp [buildValue, h]
    | some v => simp [buildValue, h]
  · cases h : lookupEnv vars nm with
    | none => simp [resolveArgument, h]
    | some v => simp [resolveArgument, h]

/-- C9: when the resolved value of a field with a nested selection set
is a map, resolveNestedSelection passes the whole map through unchanged;
the nested selection set is not applied and no entry is filtered. -/
theorem c9_map_passthrough (q m : Regs) (entries : List (GoStr × GoVal))
    (ss : SelectionSet) (vars : List (GoStr × GoVal)) :
    resolveNestedSelection q m (.mapv entries) ss vars = .ok (.mapv entries) := rfl

/-- C10: when the resolved value of a field with a nested selection set
is an empty sequence (nil or empty non-nil slice), resolveNestedSelection
returns Go's nil slice (the loop appends nothing to
`var arr []interface\x7b\x7d`), which encodes as null, not as an empty
sequence. -/
theorem c10_empty_slice_gives_nil (q m : Regs) (b : Bool) (ss : SelectionSet)
    (vars : List (GoStr × GoVal)) :
    resolveNestedSelection q m (.slice b []) ss vars = .ok (.slice true []) := rfl

end VG
